import Mathlib

/-!
Shallow embedding of `drivers/platform/chrome/wilco_ec/debugfs.c`
(linux 5.1.5), the `raw` debugfs attribute of the Wilco embedded
controller: a hex-sentence parser (`parse_hex_sentence`), the request
builder and transport invocation (`raw_write`), and the one-shot
formatted response read (`raw_read`).

Machine integers are modelled as `Nat` (all values involved are byte
values or small sizes, so no overflow arises); fallible operations
return `Except`/`Option`.  Library helpers that the driver calls but
whose source is not part of this repository snapshot (`kstrtou8`,
kernel `isspace`, `hex_dump_to_buffer`, the constants of
`include/linux/platform_data/wilco-ec.h`) are modelled from the spec,
as marked on each definition.
-/

namespace WilcoEc

/-- Size in bytes of the standard EC mailbox data area.
Modelled from the spec: constant `EC_MAILBOX_DATA_SIZE` of
`include/linux/platform_data/wilco-ec.h`, which is not under `src/`;
value as in linux 5.1.5 (the "default capacity" of the spec). -/
def EC_MAILBOX_DATA_SIZE : Nat := 32

/-- Size in bytes of the extended EC mailbox data area.
Modelled from the spec: constant `EC_MAILBOX_DATA_SIZE_EXTENDED` of
`include/linux/platform_data/wilco-ec.h`, not under `src/`; value as in
linux 5.1.5 (the "extended capacity"; the driver's own header comment
speaks of "the 256 raw bytes"). -/
def EC_MAILBOX_DATA_SIZE_EXTENDED : Nat := 256

/-- The 256 raw bytes take up more space when represented as a hex
string (from `debugfs.c`). -/
def FORMATTED_BUFFER_SIZE : Nat := EC_MAILBOX_DATA_SIZE_EXTENDED * 4

/-- The message type takes up two bytes (from `debugfs.c`). -/
def TYPE_AND_DATA_SIZE : Nat := EC_MAILBOX_DATA_SIZE + 2

/-- Maximum length of one "word" of the hex sentence (from
`parse_hex_sentence` in `debugfs.c`). -/
def MAX_WORD_SIZE : Nat := 16

/-- Message type sentinel selecting the extended response.
Modelled from the spec: enum value `WILCO_EC_MSG_TELEMETRY_LONG` of
`include/linux/platform_data/wilco-ec.h`, not under `src/`; value as in
linux 5.1.5 (the "reserved extended sentinel" of the spec). -/
def WILCO_EC_MSG_TELEMETRY_LONG : Nat := 0xf6

/-- Request flag: do not trim the request data.
Modelled from the spec: flag bit of `struct wilco_ec_message`
(`include/linux/platform_data/wilco-ec.h`, not under `src/`).  The
flags are distinct bits; the exact positions are immaterial here. -/
def WILCO_EC_FLAG_RAW_REQUEST : Nat := 4

/-- Response flag: do not trim the response data.
Modelled from the spec: flag bit of `struct wilco_ec_message`
(`include/linux/platform_data/wilco-ec.h`, not under `src/`). -/
def WILCO_EC_FLAG_RAW_RESPONSE : Nat := 8

/-- Raw mode: both raw request and raw response (from
`include/linux/platform_data/wilco-ec.h`, not under `src/`). -/
def WILCO_EC_FLAG_RAW : Nat := WILCO_EC_FLAG_RAW_REQUEST ||| WILCO_EC_FLAG_RAW_RESPONSE

/-- Extended-data flag: the EC returns 256 data bytes.
Modelled from the spec: flag bit of `struct wilco_ec_message`
(`include/linux/platform_data/wilco-ec.h`, not under `src/`). -/
def WILCO_EC_FLAG_EXTENDED_DATA : Nat := 2

/-- Whitespace test used to separate the words of a hex sentence.
Modelled from the spec: kernel `isspace` of `linux/ctype.h` (not under
`src/`), restricted to the ASCII whitespace characters the spec's
"words separated by one or more whitespace characters" refers to. -/
def isspace (c : Char) : Bool :=
  c = ' ' || c = '\t' || c = '\n' || c = Char.ofNat 11 || c = Char.ofNat 12 || c = '\r'

/-- Value of one ASCII hexadecimal digit, case-insensitive. -/
def hexDigitVal (c : Char) : Option Nat :=
  if 48 ≤ c.toNat && c.toNat ≤ 57 then some (c.toNat - 48)
  else if 97 ≤ c.toNat && c.toNat ≤ 102 then some (c.toNat - 87)
  else if 65 ≤ c.toNat && c.toNat ≤ 70 then some (c.toNat - 55)
  else none

/-- Accumulated value of a string of hex digits, `none` on any
non-hex-digit character. -/
def hexDigits? (w : List Char) : Option Nat :=
  w.foldl (fun acc c => acc.bind fun a => (hexDigitVal c).map fun v => 16 * a + v) (some 0)

/-- Base-16 string-to-u8 conversion.
Modelled from the spec: `kstrtou8` of `lib/kstrtox.c` (not under
`src/`), as the spec describes it: each word "is parsed as a base-16
unsigned integer in the range 0..255; a word containing non-hex
characters or exceeding 255 after accounting for leading zeros fails".
An empty word fails. -/
def kstrtou8 (w : List Char) : Option Nat :=
  if w.isEmpty then none
  else match hexDigits? w with
       | none => none
       | some v => if v ≤ 255 then some v else none

/-- Scanner for `splitWords`, structurally recursive on a fuel bound
so that it evaluates by kernel reduction.  Every step consumes at least
one input character, so any `fuel` at least the input length gives the
full word list (mirroring the C loop, whose `word_start` index strictly
increases towards `isize` on every iteration). -/
def splitWordsAux : Nat → List Char → List (List Char)
  | 0, _ => []
  | _, [] => []
  | fuel + 1, c :: cs =>
    if isspace c then splitWordsAux fuel cs
    else ((c :: cs).takeWhile (fun x => !isspace x))
         :: splitWordsAux fuel (cs.dropWhile (fun x => !isspace x))

/-- Split an input buffer into its whitespace-separated words, in
order.  This mirrors the scanning of the while-loop of
`parse_hex_sentence`: skip whitespace to find `word_start`, scan
non-whitespace to find `word_end`, repeat from `word_end`. -/
def splitWords (l : List Char) : List (List Char) :=
  splitWordsAux l.length l

/-- One word of the hex sentence parses if it is at most
`MAX_WORD_SIZE` characters and is a valid base-16 byte. -/
def validWord (w : List Char) : Bool :=
  decide (w.length ≤ MAX_WORD_SIZE) && (kstrtou8 w).isSome

/-- Error outcomes of `parse_hex_sentence`.  Both are reported to the
caller as `-EINVAL` in the C code; the two constructors record the two
distinct failure points (word longer than `MAX_WORD_SIZE`; word that
`kstrtou8` rejects). -/
inductive ParseError where
  | wordTooLong
  | invalidToken
deriving DecidableEq, Repr

/-- Process a list of words in order, as the body of the while-loop of
`parse_hex_sentence` does: reject a word longer than `MAX_WORD_SIZE`,
convert with `kstrtou8` (rejecting on failure), and append the byte to
the output. -/
def parseWords : List (List Char) → Except ParseError (List Nat)
  | [] => .ok []
  | w :: ws =>
    if w.length > MAX_WORD_SIZE then .error .wordTooLong
    else match kstrtou8 w with
         | none => .error .invalidToken
         | some b =>
           match parseWords ws with
           | .error e => .error e
           | .ok bs => .ok (b :: bs)

/-- Convert an ascii hex sentence into a byte array
(`parse_hex_sentence` of `debugfs.c`).  The C loop runs while
`word_start < isize && n_parsed < osize`, handling exactly one word per
iteration; so it processes precisely the first `osize` whitespace-
separated words of the input (fewer if the input ends first), failing
at the first word that is over-long or not a valid hex byte, and never
examines input beyond the `osize`-th word.  On success the bytes of the
processed words are returned in order. -/
def parse_hex_sentence (input : List Char) (osize : Nat) : Except ParseError (List Nat) :=
  parseWords ((splitWords input).take osize)

/-- ASCII printability test: the printable characters 0x20..0x7e. -/
def isprint (b : Nat) : Bool :=
  32 ≤ b && b ≤ 126

/-- Character shown in the ASCII column for one byte: the character
itself when printable, otherwise the placeholder dot. -/
def toAsciiChar (b : Nat) : Char :=
  if isprint b then Char.ofNat b else '.'

/-- Lowercase hexadecimal digit for a value below 16. -/
def hexDigitChar (n : Nat) : Char :=
  if n < 10 then Char.ofNat (48 + n) else Char.ofNat (87 + n % 16)

/-- Two-digit lowercase hexadecimal rendition of one byte. -/
def byteHex (b : Nat) : List Char :=
  [hexDigitChar (b / 16 % 16), hexDigitChar (b % 16)]

/-- Four-hex-digit offset label of one dump line. -/
def offsetHex (off : Nat) : List Char :=
  [hexDigitChar (off / 4096 % 16), hexDigitChar (off / 256 % 16),
   hexDigitChar (off / 16 % 16), hexDigitChar (off % 16)]

/-- Row splitter for `chunks16`, structurally recursive on a fuel
bound so that it evaluates by kernel reduction; every step consumes at
least one byte, so any `fuel` at least the input length yields all the
rows. -/
def chunks16Aux : Nat → List Nat → List (List Nat)
  | 0, _ => []
  | _, [] => []
  | fuel + 1, b :: bs => ((b :: bs).take 16) :: chunks16Aux fuel ((b :: bs).drop 16)

/-- Split a byte sequence into consecutive runs of 16, the row size of
the hex dump; the final run may be shorter. -/
def chunks16 (l : List Nat) : List (List Nat) :=
  chunks16Aux l.length l

/-- One line of the hex dump: offset label, the space-separated
two-digit hex values of this line's bytes, and the ASCII rendition of
the same bytes. -/
def formatLine (off : Nat) (bs : List Nat) : List Char :=
  offsetHex off ++ [':', ' '] ++ List.intercalate [' '] (bs.map byteHex)
    ++ [' ', ' '] ++ bs.map toAsciiChar

/-- Format a raw byte sequence as an annotated hexadecimal dump, 16
bytes per line.
Modelled from the spec: `hex_dump_to_buffer` of `lib/hexdump.c` is not
under `src/`; this is the ResponseFormatter of the spec, which
"produces fixed-width lines of up to 16 bytes each: an offset label,
space-separated two-digit hex byte values, followed by a
printable-ASCII rendition of the same bytes (non-printable bytes
rendered as a placeholder character)", and empty output for zero
length. -/
def hex_dump_to_buffer (bs : List Nat) : String :=
  String.mk (List.intercalate ['\n']
    ((chunks16 bs).enum.map (fun p => formatLine (16 * p.1) p.2)))

/-- State of the debugfs session: the fields of
`struct wilco_ec_debugfs` that carry the response between `raw_write`
and `raw_read` (`response_size` and the `raw_data` buffer of
`EC_MAILBOX_DATA_SIZE_EXTENDED` bytes).  The `formatted_data` buffer is
scratch space: `raw_write` uses it to land the user text before
parsing, and `raw_read` regenerates it from `raw_data` and
`response_size` on every read with a pending response, so it carries no
session state of its own.  The `ec` and `dir` pointers are plumbing
outside the core. -/
structure WilcoEcDebugfs where
  response_size : Nat
  raw_data : List Nat
deriving DecidableEq, Repr

/-- The mailbox message handed to the transport: the fields of
`struct wilco_ec_message` that `raw_write` fills in.  `request_data`
is the payload pointed to (empty when the C code stores a null
pointer, which it does exactly when `request_size` is zero). -/
structure WilcoEcMessage where
  type : Nat
  flags : Nat
  command : Nat
  request_data : List Nat
  request_size : Nat
  response_size : Nat
deriving DecidableEq, Repr

/-- Error outcomes of `raw_write`, one per early-return point of the C
function: oversized input (`-EINVAL`), hex-sentence parse failure
(`-EINVAL`), fewer than three parsed bytes (`-EINVAL`), and the
negative code passed through verbatim from `wilco_ec_mailbox`. -/
inductive WriteError where
  | inputTooLarge
  | parseFail (e : ParseError)
  | tooShort
  | transportFail (errno : Int)
deriving DecidableEq, Repr

/-- Decidable equality for `Except` results, so that concrete
outcomes can be checked by `decide`. -/
instance {ε α : Type} [DecidableEq ε] [DecidableEq α] : DecidableEq (Except ε α) := fun x y =>
  match x, y with
  | .ok a, .ok b => if h : a = b then .isTrue (by rw [h]) else .isFalse (by simp [h])
  | .error a, .error b => if h : a = b then .isTrue (by rw [h]) else .isFalse (by simp [h])
  | .ok _, .error _ => .isFalse (by simp)
  | .error _, .ok _ => .isFalse (by simp)

/-- Complete outcome of one `raw_write` call: the returned value
(`count` on success, error otherwise), the session state after the
call, and the message handed to `wilco_ec_mailbox` (`none` when the
transport was never invoked). -/
structure WriteOutcome where
  ret : Except WriteError Nat
  state : WilcoEcDebugfs
  sent : Option WilcoEcMessage
deriving DecidableEq, Repr

/-- Build the outgoing mailbox message from the parsed bytes, as the
assignment block of `raw_write` does: `type` from the first two bytes
big-endian (`request_data[0] << 8 | request_data[1]`), raw-mode flags,
`command` from the third byte, the remaining bytes as payload (the C
code passes a null pointer exactly when the payload is empty), and the
default response size — except that a `WILCO_EC_MSG_TELEMETRY_LONG`
type additionally sets `WILCO_EC_FLAG_EXTENDED_DATA` and selects the
extended response size. -/
def build_message (b0 b1 b2 : Nat) (payload : List Nat) : WilcoEcMessage :=
  let ty := b0 <<< 8 ||| b1
  { type := ty
  , flags := if ty = WILCO_EC_MSG_TELEMETRY_LONG
               then WILCO_EC_FLAG_RAW ||| WILCO_EC_FLAG_EXTENDED_DATA
               else WILCO_EC_FLAG_RAW
  , command := b2
  , request_data := payload
  , request_size := payload.length
  , response_size := if ty = WILCO_EC_MSG_TELEMETRY_LONG
                       then EC_MAILBOX_DATA_SIZE_EXTENDED
                       else EC_MAILBOX_DATA_SIZE }

/-- Write a hex sentence to the `raw` attribute (`raw_write` of
`debugfs.c`), at file position zero so that the full `count`-byte input
lands in the buffer (`kcount = count`).  The transport collaborator
`wilco_ec_mailbox` is a parameter: on success it yields the response
bytes it wrote into `raw_data` (whose count it returns), on failure a
negative errno.  Mirrors the C control flow in order: the
`count > FORMATTED_BUFFER_SIZE` check, `parse_hex_sentence` with output
bound `TYPE_AND_DATA_SIZE`, the `ret < 3` check, the `memset` of
`raw_data`, `build_message`, the mailbox call, and on success storing
`response_size` and returning `count`.  Note the `memset` clears
`raw_data` only: `response_size` is not touched before the mailbox
call. -/
def raw_write (st : WilcoEcDebugfs) (input : List Char)
    (transport : WilcoEcMessage → Except Int (List Nat)) : WriteOutcome :=
  if input.length > FORMATTED_BUFFER_SIZE then
    { ret := .error .inputTooLarge, state := st, sent := none }
  else
    match parse_hex_sentence input TYPE_AND_DATA_SIZE with
    | .error e => { ret := .error (.parseFail e), state := st, sent := none }
    | .ok (b0 :: b1 :: b2 :: payload) =>
      let msg : WilcoEcMessage := build_message b0 b1 b2 payload
      match transport msg with
      | .error errno =>
        { ret := .error (.transportFail errno)
        , state := { response_size := st.response_size
                   , raw_data := List.replicate EC_MAILBOX_DATA_SIZE_EXTENDED 0 }
        , sent := some msg }
      | .ok resp =>
        { ret := .ok input.length
        , state := { response_size := resp.length
                   , raw_data := resp.take EC_MAILBOX_DATA_SIZE_EXTENDED
                       ++ List.replicate (EC_MAILBOX_DATA_SIZE_EXTENDED - resp.length) 0 }
        , sent := some msg }
    | .ok _ => { ret := .error .tooShort, state := st, sent := none }

/-- Outcome of one full `raw_read` pass: the text handed to user space
and the session state afterwards. -/
structure ReadOutcome where
  output : String
  state : WilcoEcDebugfs
deriving DecidableEq, Repr

/-- Read the formatted response (`raw_read` of `debugfs.c`), as one
full read from file position zero: when `response_size` is non-zero the
`response_size` leading bytes of `raw_data` are formatted into
`formatted_data` and `response_size` is zeroed so that only the first
read returns the response; otherwise `fmt_len` stays zero and the read
returns no bytes. -/
def raw_read (st : WilcoEcDebugfs) : ReadOutcome :=
  if st.response_size ≠ 0 then
    { output := hex_dump_to_buffer (st.raw_data.take st.response_size)
    , state := { st with response_size := 0 } }
  else
    { output := "", state := st }

/-! Supporting lemmas about the parser, the formatter and `raw_write`. -/

/-- A byte accepted by `kstrtou8` fits in eight bits. -/
theorem kstrtou8_le_255 (w : List Char) (b : Nat) (h : kstrtou8 w = some b) : b ≤ 255 := by
  unfold kstrtou8 at h
  split at h
  · simp at h
  · split at h
    · simp at h
    · split at h
      · rename_i v hv hle
        cases h
        exact hle
      · simp at h

/-- On a list of valid words `parseWords` succeeds, producing exactly
one byte per word. -/
theorem parseWords_ok_of_valid (ws : List (List Char)) (hv : ∀ w ∈ ws, validWord w = true) :
    ∃ bs, parseWords ws = .ok bs ∧ bs.length = ws.length := by
  induction ws with
  | nil => exact ⟨[], rfl, rfl⟩
  | cons w ws ih =>
    have hw := hv w (by simp)
    unfold validWord at hw
    rw [Bool.and_eq_true, decide_eq_true_eq] at hw
    obtain ⟨hw1, hw2⟩ := hw
    obtain ⟨bs, hbs, hlen⟩ := ih (fun x hx => hv x (by simp [hx]))
    obtain ⟨b, hb⟩ := Option.isSome_iff_exists.mp hw2
    refine ⟨b :: bs, ?_, by simp [hlen]⟩
    unfold parseWords
    rw [if_neg (by omega), hb, hbs]

/-- Every byte produced by `parseWords` is at most 255. -/
theorem parseWords_le_255 (ws : List (List Char)) (bs : List Nat)
    (h : parseWords ws = .ok bs) : ∀ b ∈ bs, b ≤ 255 := by
  induction ws generalizing bs with
  | nil =>
    unfold parseWords at h
    cases h
    simp
  | cons w ws ih =>
    unfold parseWords at h
    split at h
    · simp at h
    · split at h
      · simp at h
      · rename_i b hb
        split at h
        · simp at h
        · rename_i bs' hbs'
          cases h
          intro x hx
          rcases List.mem_cons.mp hx with hx | hx
          · exact hx ▸ kstrtou8_le_255 w b hb
          · exact ih bs' hbs' x hx

/-- Every byte of a successful `parse_hex_sentence` is at most 255. -/
theorem parse_hex_sentence_le_255 (input : List Char) (osize : Nat) (bs : List Nat)
    (h : parse_hex_sentence input osize = .ok bs) : ∀ b ∈ bs, b ≤ 255 :=
  parseWords_le_255 _ bs h

/-- All-whitespace input splits into no words, whatever the fuel. -/
theorem splitWordsAux_all_space (fuel : Nat) (l : List Char)
    (h : ∀ c ∈ l, isspace c = true) : splitWordsAux fuel l = [] := by
  induction fuel generalizing l with
  | zero => cases l <;> rfl
  | succ fuel ih =>
    cases l with
    | nil => rfl
    | cons c cs =>
      unfold splitWordsAux
      rw [if_pos (h c (by simp))]
      exact ih cs (fun x hx => h x (by simp [hx]))

/-- All-whitespace input splits into no words. -/
theorem splitWords_all_space (l : List Char) (h : ∀ c ∈ l, isspace c = true) :
    splitWords l = [] :=
  splitWordsAux_all_space l.length l h

/-- Concatenating the rows of the dump gives back the bytes, for any
sufficient fuel. -/
theorem chunks16Aux_flatten (fuel : Nat) (l : List Nat) (h : l.length ≤ fuel) :
    (chunks16Aux fuel l).flatten = l := by
  induction fuel generalizing l with
  | zero =>
    cases l with
    | nil => rfl
    | cons b bs => simp at h
  | succ fuel ih =>
    cases l with
    | nil => rfl
    | cons b bs =>
      unfold chunks16Aux
      rw [List.flatten_cons, ih ((b :: bs).drop 16)
        (by simp only [List.length_drop, List.length_cons] at h ⊢; omega)]
      exact List.take_append_drop 16 (b :: bs)

/-- Concatenating the rows of the dump gives back the bytes. -/
theorem chunks16_flatten (l : List Nat) : (chunks16 l).flatten = l :=
  chunks16Aux_flatten l.length l le_rfl

/-- Every row of the dump is non-empty and holds at most 16 bytes. -/
theorem chunks16Aux_mem (fuel : Nat) (l : List Nat) (h : l.length ≤ fuel) :
    ∀ c ∈ chunks16Aux fuel l, c ≠ [] ∧ c.length ≤ 16 := by
  induction fuel generalizing l with
  | zero =>
    cases l with
    | nil => simp [chunks16Aux]
    | cons b bs => simp at h
  | succ fuel ih =>
    cases l with
    | nil => simp [chunks16Aux]
    | cons b bs =>
      unfold chunks16Aux
      intro c hc
      rcases List.mem_cons.mp hc with hc | hc
      · subst hc
        constructor
        · simp
        · simp
      · exact ih ((b :: bs).drop 16) (by simp only [List.length_drop, List.length_cons] at h ⊢; omega) c hc

/-- Every row of the dump is non-empty and holds at most 16 bytes. -/
theorem chunks16_mem (l : List Nat) : ∀ c ∈ chunks16 l, c ≠ [] ∧ c.length ≤ 16 :=
  chunks16Aux_mem l.length l le_rfl

/-- The dump has one row per started run of 16 bytes. -/
theorem chunks16Aux_length (fuel : Nat) (l : List Nat) (h : l.length ≤ fuel) :
    (chunks16Aux fuel l).length = (l.length + 15) / 16 := by
  induction fuel generalizing l with
  | zero =>
    cases l with
    | nil => rfl
    | cons b bs => simp at h
  | succ fuel ih =>
    cases l with
    | nil => rfl
    | cons b bs =>
      unfold chunks16Aux
      rw [List.length_cons, ih ((b :: bs).drop 16)
        (by simp only [List.length_drop, List.length_cons] at h ⊢; omega)]
      simp only [List.length_drop, List.length_cons]
      omega

/-- The dump has one row per started run of 16 bytes. -/
theorem chunks16_length (l : List Nat) : (chunks16 l).length = (l.length + 15) / 16 :=
  chunks16Aux_length l.length l le_rfl

/-- Exhaustive case analysis of `raw_write`: oversized input, parse
failure, fewer than three parsed bytes, transport failure, and success,
with the complete outcome in each case. -/
theorem raw_write_cases (st : WilcoEcDebugfs) (input : List Char)
    (tr : WilcoEcMessage → Except Int (List Nat)) :
    (input.length > FORMATTED_BUFFER_SIZE ∧
      raw_write st input tr = ⟨.error .inputTooLarge, st, none⟩) ∨
    (∃ e, parse_hex_sentence input TYPE_AND_DATA_SIZE = .error e ∧
      raw_write st input tr = ⟨.error (.parseFail e), st, none⟩) ∨
    (∃ bs, parse_hex_sentence input TYPE_AND_DATA_SIZE = .ok bs ∧ bs.length < 3 ∧
      raw_write st input tr = ⟨.error .tooShort, st, none⟩) ∨
    (∃ b0 b1 b2 payload,
      parse_hex_sentence input TYPE_AND_DATA_SIZE = .ok (b0 :: b1 :: b2 :: payload) ∧
      input.length ≤ FORMATTED_BUFFER_SIZE ∧
      ((∃ errno, tr (build_message b0 b1 b2 payload) = .error errno ∧
         raw_write st input tr =
           ⟨.error (.transportFail errno),
            ⟨st.response_size, List.replicate EC_MAILBOX_DATA_SIZE_EXTENDED 0⟩,
            some (build_message b0 b1 b2 payload)⟩) ∨
       (∃ resp, tr (build_message b0 b1 b2 payload) = .ok resp ∧
         raw_write st input tr =
           ⟨.ok input.length,
            ⟨resp.length, resp.take EC_MAILBOX_DATA_SIZE_EXTENDED ++
              List.replicate (EC_MAILBOX_DATA_SIZE_EXTENDED - resp.length) 0⟩,
            some (build_message b0 b1 b2 payload)⟩))) := by
  unfold raw_write
  split
  · rename_i hlen
    exact Or.inl ⟨hlen, rfl⟩
  · rename_i hlen
    split
    · rename_i e he
      exact Or.inr (Or.inl ⟨e, he, rfl⟩)
    · rename_i b0 b1 b2 payload hp
      refine Or.inr (Or.inr (Or.inr ⟨b0, b1, b2, payload, hp, by omega, ?_⟩))
      dsimp only
      split
      · rename_i errno htr
        exact Or.inl ⟨errno, htr, rfl⟩
      · rename_i resp htr
        exact Or.inr ⟨resp, htr, rfl⟩
    · rename_i bs hnomatch hp
      refine Or.inr (Or.inr (Or.inl ⟨bs, hp, ?_, rfl⟩))
      match bs, hnomatch with
      | [], _ => simp
      | [x], _ => simp
      | [x, y], _ => simp
      | x :: y :: z :: rest, hnm => exact absurd rfl (hnm x y z rest)

/-- Low byte below 256 makes shift-or agree with big-endian addition. -/
theorem shiftLeft8_or (b0 b1 : Nat) (h : b1 < 256) : b0 <<< 8 ||| b1 = 256 * b0 + b1 := by
  have hpow : (2 : Nat) ^ 8 = 256 := by norm_num
  have h2 : b1 < 2 ^ 8 := by rw [hpow]; exact h
  have hs : b0 <<< 8 = 2 ^ 8 * b0 := by rw [Nat.shiftLeft_eq, Nat.mul_comm]
  rw [hs, ← Nat.mul_add_lt_is_or h2 b0, hpow]

/-- The flags of every built message: raw mode always set, extended
data exactly for the telemetry-long type. -/
theorem build_message_flags (b0 b1 b2 : Nat) (payload : List Nat) :
    (build_message b0 b1 b2 payload).flags &&& WILCO_EC_FLAG_RAW = WILCO_EC_FLAG_RAW ∧
    ((build_message b0 b1 b2 payload).flags &&& WILCO_EC_FLAG_EXTENDED_DATA ≠ 0 ↔
      (build_message b0 b1 b2 payload).type = WILCO_EC_MSG_TELEMETRY_LONG) := by
  unfold build_message
  dsimp only
  by_cases hty : (b0 <<< 8 ||| b1) = WILCO_EC_MSG_TELEMETRY_LONG
  · rw [if_pos hty]
    exact ⟨by decide, iff_of_true (by decide) hty⟩
  · rw [if_neg hty]
    exact ⟨by decide, iff_of_false (by decide) hty⟩

/-- C1 (counterexample): the claim "after a transport failure the
session is left in Idle with no buffered response, so that a subsequent
read returns empty output" is false on the code when the session
already held an unread response: with a buffered two-byte response, a
write of "00 f0 38" whose transport fails with -EIO returns the
transport error, yet `response_size` is still 2 (the state is not Idle)
and a subsequent read returns non-empty output (a dump of the two
zeroed bytes). -/
theorem C1_counterexample :
    (raw_write (⟨2, List.replicate 256 0⟩ : WilcoEcDebugfs) ("00 f0 38".toList)
        (fun _ => .error (-5))).ret = .error (.transportFail (-5)) ∧
    (raw_write (⟨2, List.replicate 256 0⟩ : WilcoEcDebugfs) ("00 f0 38".toList)
        (fun _ => .error (-5))).state.response_size ≠ 0 ∧
    (raw_read (raw_write (⟨2, List.replicate 256 0⟩ : WilcoEcDebugfs) ("00 f0 38".toList)
        (fun _ => .error (-5))).state).output ≠ "" := by
  refine ⟨by decide, by decide, by decide⟩

/-- C1 (amended): when a write passes parsing and request building but
the transport call fails, the write returns that transport error and
buffers no new response; the raw data buffer is zeroed but the
unread-response length is not reset, so the session state keeps the
previous `response_size`.  In particular a session that was Idle stays
Idle and a subsequent read returns empty output; a session that held an
unread response does not. -/
theorem C1_transport_error_state (st : WilcoEcDebugfs) (input : List Char)
    (tr : WilcoEcMessage → Except Int (List Nat)) (e : Int)
    (h : (raw_write st input tr).ret = .error (.transportFail e)) :
    (raw_write st input tr).state.response_size = st.response_size ∧
    (raw_write st input tr).state.raw_data =
      List.replicate EC_MAILBOX_DATA_SIZE_EXTENDED 0 ∧
    (st.response_size = 0 →
      (raw_read (raw_write st input tr).state).output = "" ∧
      (raw_read (raw_write st input tr).state).state.response_size = 0) := by
  rcases raw_write_cases st input tr with ⟨_, hw⟩ | ⟨e', _, hw⟩ | ⟨bs, _, _, hw⟩ |
    ⟨b0, b1, b2, payload, hp, hlen, ⟨errno, htr, hw⟩ | ⟨resp, htr, hw⟩⟩
  · rw [hw] at h; simp at h
  · rw [hw] at h; simp at h
  · rw [hw] at h; simp at h
  · rw [hw]
    refine ⟨rfl, rfl, fun h0 => ?_⟩
    simp [raw_read, h0]
  · rw [hw] at h; simp at h

/-- C1 (witness): concrete run of the amended theorem on an Idle
session whose transport fails. -/
theorem C1_transport_error_state_witness :
    (raw_write (⟨0, List.replicate 256 0⟩ : WilcoEcDebugfs) ("00 f0 38".toList)
        (fun _ => .error (-5))).ret = .error (.transportFail (-5)) ∧
    (raw_read (raw_write (⟨0, List.replicate 256 0⟩ : WilcoEcDebugfs) ("00 f0 38".toList)
        (fun _ => .error (-5))).state).output = "" :=
  ⟨by decide,
   ((C1_transport_error_state ⟨0, List.replicate 256 0⟩ ("00 f0 38".toList)
      (fun _ => .error (-5)) (-5) (by decide)).2.2 rfl).1⟩

/-- C3: for a non-empty buffered response the formatter renders every
byte, in fixed rows of at most 16 bytes (all full except possibly the
last, one row per started run of 16), each row being an offset label,
the space-separated two-digit hex values of that row's bytes, and the
ASCII rendition of the same bytes with non-printable bytes shown as a
placeholder dot. -/
theorem C3_formatter_lines (resp : List Nat) (h : resp ≠ []) :
    chunks16 resp ≠ [] ∧
    (chunks16 resp).flatten = resp ∧
    (∀ c ∈ chunks16 resp, c ≠ [] ∧ c.length ≤ 16) ∧
    (chunks16 resp).length = (resp.length + 15) / 16 ∧
    hex_dump_to_buffer resp =
      String.mk (List.intercalate ['\n']
        ((chunks16 resp).enum.map (fun p => formatLine (16 * p.1) p.2))) ∧
    (∀ off bs, formatLine off bs =
      offsetHex off ++ [':', ' '] ++ List.intercalate [' '] (bs.map byteHex)
        ++ [' ', ' '] ++ bs.map toAsciiChar) ∧
    (∀ b, (byteHex b).length = 2) ∧
    (∀ b, isprint b = false → toAsciiChar b = '.') := by
  refine ⟨?_, chunks16_flatten resp, chunks16_mem resp, chunks16_length resp, rfl,
    fun off bs => rfl, fun b => rfl, fun b hb => ?_⟩
  · intro hc
    apply h
    have hf := chunks16_flatten resp
    rw [hc] at hf
    exact hf.symm
  · simp [toAsciiChar, hb]

/-- C3 (witness): concrete run of the formatter theorem on the
two-byte response of the spec's example. -/
theorem C3_formatter_lines_witness :
    ([0x31, 0x32] : List Nat) ≠ [] ∧
    (chunks16 [0x31, 0x32]).flatten = [0x31, 0x32] ∧
    hex_dump_to_buffer [0x31, 0x32] = "0000: 31 32  12" :=
  ⟨by decide, (C3_formatter_lines [0x31, 0x32] (by decide)).2.1, by decide⟩

/-- C4: a write whose hex-sentence parsing fails returns the parse
error and leaves the session state unchanged — the transport is not
invoked and a subsequent read behaves exactly as it would have before
the failed write, still returning the previously buffered response. -/
theorem C4_parse_failure_preserves_response (st : WilcoEcDebugfs) (input : List Char)
    (tr : WilcoEcMessage → Except Int (List Nat)) (e : ParseError)
    (h : (raw_write st input tr).ret = .error (.parseFail e)) :
    (raw_write st input tr).state = st ∧
    (raw_write st input tr).sent = none ∧
    raw_read ((raw_write st input tr).state) = raw_read st := by
  rcases raw_write_cases st input tr with ⟨_, hw⟩ | ⟨e', _, hw⟩ | ⟨bs, _, _, hw⟩ |
    ⟨b0, b1, b2, payload, hp, hlen, ⟨errno, htr, hw⟩ | ⟨resp, htr, hw⟩⟩
  · rw [hw] at h; simp at h
  · rw [hw]; exact ⟨rfl, rfl, rfl⟩
  · rw [hw] at h; simp at h
  · rw [hw] at h; simp at h
  · rw [hw] at h; simp at h

/-- C4 (witness): a session holding the unread response `31 32`
receives a malformed write "zz"; the parse error is returned and a
subsequent read still returns the earlier response's formatted text. -/
theorem C4_parse_failure_preserves_response_witness :
    (raw_write (⟨2, [0x31, 0x32] ++ List.replicate 254 0⟩ : WilcoEcDebugfs) ("zz".toList)
        (fun _ => .ok [])).ret = .error (.parseFail .invalidToken) ∧
    raw_read ((raw_write (⟨2, [0x31, 0x32] ++ List.replicate 254 0⟩ : WilcoEcDebugfs)
        ("zz".toList) (fun _ => .ok [])).state) =
      raw_read ⟨2, [0x31, 0x32] ++ List.replicate 254 0⟩ ∧
    (raw_read (⟨2, [0x31, 0x32] ++ List.replicate 254 0⟩ : WilcoEcDebugfs)).output =
      "0000: 31 32  12" :=
  ⟨by decide,
   (C4_parse_failure_preserves_response ⟨2, [0x31, 0x32] ++ List.replicate 254 0⟩
      ("zz".toList) (fun _ => .ok []) .invalidToken (by decide)).2.2,
   by decide⟩

/-- C5: for every successfully parsed byte sequence of length at least
three (and input within the buffer bound), the message handed to the
transport has `type` equal to the first two bytes big-endian, `command`
equal to the third byte, and payload equal to the remaining bytes; its
declared response capacity is the default unless the type equals the
telemetry-long sentinel, in which case it is the extended capacity and
the extended-data flag is set — the selection being a pure function of
the type. -/
theorem C5_request_framing (st : WilcoEcDebugfs) (input : List Char)
    (tr : WilcoEcMessage → Except Int (List Nat)) (b0 b1 b2 : Nat) (payload : List Nat)
    (hlen : input.length ≤ FORMATTED_BUFFER_SIZE)
    (hp : parse_hex_sentence input TYPE_AND_DATA_SIZE = .ok (b0 :: b1 :: b2 :: payload)) :
    ∃ msg, (raw_write st input tr).sent = some msg ∧
      msg.type = 256 * b0 + b1 ∧
      msg.command = b2 ∧
      msg.request_data = payload ∧
      msg.request_size = payload.length ∧
      msg.response_size = (if msg.type = WILCO_EC_MSG_TELEMETRY_LONG
                             then EC_MAILBOX_DATA_SIZE_EXTENDED
                             else EC_MAILBOX_DATA_SIZE) ∧
      (msg.flags &&& WILCO_EC_FLAG_EXTENDED_DATA ≠ 0 ↔
        msg.type = WILCO_EC_MSG_TELEMETRY_LONG) := by
  have hb1 : b1 ≤ 255 :=
    parse_hex_sentence_le_255 input TYPE_AND_DATA_SIZE _ hp b1 (by simp)
  have hty : (build_message b0 b1 b2 payload).type = 256 * b0 + b1 :=
    shiftLeft8_or b0 b1 (by omega)
  rcases raw_write_cases st input tr with ⟨hl, hw⟩ | ⟨e', hp', hw⟩ | ⟨bs, hp', hs, hw⟩ |
    ⟨b0', b1', b2', payload', hp', hlen', ⟨errno, htr, hw⟩ | ⟨resp, htr, hw⟩⟩
  · exact absurd hl (by omega)
  · rw [hp] at hp'; simp at hp'
  · rw [hp] at hp'
    obtain rfl := (Except.ok.inj hp').symm
    simp at hs
    omega
  · rw [hp] at hp'
    obtain ⟨rfl, rfl, rfl, rfl⟩ : b0 = b0' ∧ b1 = b1' ∧ b2 = b2' ∧ payload = payload' := by
      simpa using hp'
    exact ⟨build_message b0 b1 b2 payload, by rw [hw], hty, rfl, rfl, rfl, rfl,
      (build_message_flags b0 b1 b2 payload).2⟩
  · rw [hp] at hp'
    obtain ⟨rfl, rfl, rfl, rfl⟩ : b0 = b0' ∧ b1 = b1' ∧ b2 = b2' ∧ payload = payload' := by
      simpa using hp'
    exact ⟨build_message b0 b1 b2 payload, by rw [hw], hty, rfl, rfl, rfl, rfl,
      (build_message_flags b0 b1 b2 payload).2⟩

/-- C5 (witness): a telemetry-long write "00 f6 01 02"; the message
handed to the transport carries type 0x00f6, command 0x01, payload
`[0x02]`, the extended response capacity and the extended-data flag. -/
theorem C5_request_framing_witness :
    parse_hex_sentence ("00 f6 01 02".toList) TYPE_AND_DATA_SIZE =
      .ok (0x00 :: 0xf6 :: 0x01 :: [0x02]) ∧
    (∃ msg, (raw_write (⟨0, List.replicate 256 0⟩ : WilcoEcDebugfs) ("00 f6 01 02".toList)
        (fun _ => .ok [])).sent = some msg ∧
      msg.type = 256 * 0x00 + 0xf6 ∧
      msg.command = 0x01 ∧
      msg.request_data = [0x02] ∧
      msg.request_size = ([0x02] : List Nat).length ∧
      msg.response_size = (if msg.type = WILCO_EC_MSG_TELEMETRY_LONG
                             then EC_MAILBOX_DATA_SIZE_EXTENDED
                             else EC_MAILBOX_DATA_SIZE) ∧
      (msg.flags &&& WILCO_EC_FLAG_EXTENDED_DATA ≠ 0 ↔
        msg.type = WILCO_EC_MSG_TELEMETRY_LONG)) :=
  ⟨by decide,
   C5_request_framing ⟨0, List.replicate 256 0⟩ ("00 f6 01 02".toList)
     (fun _ => .ok []) 0x00 0xf6 0x01 [0x02] (by decide) (by decide)⟩

/-- C6: a write whose input parses to fewer than three bytes returns
the too-short error (`-EINVAL`), never invokes the transport, and
leaves the session state — including any buffered unread response —
unchanged. -/
theorem C6_too_short (st : WilcoEcDebugfs) (input : List Char)
    (tr : WilcoEcMessage → Except Int (List Nat)) (bs : List Nat)
    (hlen : input.length ≤ FORMATTED_BUFFER_SIZE)
    (hp : parse_hex_sentence input TYPE_AND_DATA_SIZE = .ok bs)
    (hshort : bs.length < 3) :
    (raw_write st input tr).ret = .error .tooShort ∧
    (raw_write st input tr).state = st ∧
    (raw_write st input tr).sent = none := by
  rcases raw_write_cases st input tr with ⟨hl, hw⟩ | ⟨e', hp', hw⟩ | ⟨bs', hp', hs, hw⟩ |
    ⟨b0, b1, b2, payload, hp', hlen', hrest⟩
  · exact absurd hl (by omega)
  · rw [hp] at hp'; simp at hp'
  · rw [hw]; exact ⟨rfl, rfl, rfl⟩
  · rw [hp] at hp'
    obtain rfl := Except.ok.inj hp'
    simp at hshort
    omega

/-- C6 (witness): a two-byte write "00 f0" on a session holding an
unread response returns the too-short error with the transport
untouched and the state — hence the buffered response — unchanged. -/
theorem C6_too_short_witness :
    parse_hex_sentence ("00 f0".toList) TYPE_AND_DATA_SIZE = .ok [0x00, 0xf0] ∧
    (raw_write (⟨2, [0x31, 0x32] ++ List.replicate 254 0⟩ : WilcoEcDebugfs) ("00 f0".toList)
        (fun _ => .ok [0x99])).ret = .error .tooShort ∧
    (raw_write (⟨2, [0x31, 0x32] ++ List.replicate 254 0⟩ : WilcoEcDebugfs) ("00 f0".toList)
        (fun _ => .ok [0x99])).state = ⟨2, [0x31, 0x32] ++ List.replicate 254 0⟩ ∧
    (raw_write (⟨2, [0x31, 0x32] ++ List.replicate 254 0⟩ : WilcoEcDebugfs) ("00 f0".toList)
        (fun _ => .ok [0x99])).sent = none :=
  ⟨by decide,
   C6_too_short ⟨2, [0x31, 0x32] ++ List.replicate 254 0⟩ ("00 f0".toList)
     (fun _ => .ok [0x99]) [0x00, 0xf0] (by decide) (by decide) (by decide)⟩

/-- C7: when the input contains at least `osize` words and the first
`osize` all parse, `parse_hex_sentence` succeeds with exactly `osize`
bytes, ignoring all remaining input — the result depends only on the
first `osize` words, so any further words (malformed ones included)
never cause an error; the bound `raw_write` uses is the request
capacity, two type bytes plus the mailbox data size. -/
theorem C7_early_stop (input : List Char) (osize : Nat)
    (hn : osize ≤ (splitWords input).length)
    (hv : ∀ w ∈ (splitWords input).take osize, validWord w = true) :
    (∃ bs, parse_hex_sentence input osize = .ok bs ∧ bs.length = osize) ∧
    (∀ input2 : List Char,
      (splitWords input2).take osize = (splitWords input).take osize →
      parse_hex_sentence input2 osize = parse_hex_sentence input osize) ∧
    TYPE_AND_DATA_SIZE = 2 + EC_MAILBOX_DATA_SIZE := by
  refine ⟨?_, ?_, rfl⟩
  · obtain ⟨bs, hbs, hlen⟩ := parseWords_ok_of_valid _ hv
    refine ⟨bs, hbs, ?_⟩
    rw [hlen, List.length_take]
    omega
  · intro input2 h2
    unfold parse_hex_sentence
    rw [h2]

/-- C7 (witness): with capacity 2, the sentence "aa bb cc zz" parses
to exactly the first two bytes, the trailing words — including the
malformed "zz" — silently ignored. -/
theorem C7_early_stop_witness :
    (2 : Nat) ≤ (splitWords ("aa bb cc zz".toList)).length ∧
    (∃ bs, parse_hex_sentence ("aa bb cc zz".toList) 2 = .ok bs ∧ bs.length = 2) ∧
    parse_hex_sentence ("aa bb cc zz".toList) 2 = .ok [0xaa, 0xbb] :=
  ⟨by decide,
   (C7_early_stop ("aa bb cc zz".toList) 2 (by decide) (by decide)).1,
   by decide⟩

/-- C8: an input consisting only of whitespace characters (the empty
input included) parses successfully to zero bytes, for any output
capacity. -/
theorem C8_whitespace_ok (input : List Char) (osize : Nat)
    (h : ∀ c ∈ input, isspace c = true) :
    parse_hex_sentence input osize = .ok [] := by
  unfold parse_hex_sentence
  rw [splitWords_all_space input h]
  simp [parseWords]

/-- C8 (witness): the all-blank sentence "   " parses to zero bytes at
the driver's capacity (so does the empty input, whose character list
has no members). -/
theorem C8_whitespace_ok_witness :
    (∀ c ∈ ("   ".toList), isspace c = true) ∧
    parse_hex_sentence ("   ".toList) TYPE_AND_DATA_SIZE = .ok [] ∧
    parse_hex_sentence ("".toList) TYPE_AND_DATA_SIZE = .ok [] :=
  ⟨by decide,
   C8_whitespace_ok ("   ".toList) TYPE_AND_DATA_SIZE (by decide),
   C8_whitespace_ok ("".toList) TYPE_AND_DATA_SIZE (by decide)⟩

/-- C9: every message handed to the transport has the raw-mode flag
set, and has the extended-data flag set if and only if its type equals
the telemetry-long sentinel. -/
theorem C9_flags_invariant (st : WilcoEcDebugfs) (input : List Char)
    (tr : WilcoEcMessage → Except Int (List Nat)) (msg : WilcoEcMessage)
    (h : (raw_write st input tr).sent = some msg) :
    msg.flags &&& WILCO_EC_FLAG_RAW = WILCO_EC_FLAG_RAW ∧
    (msg.flags &&& WILCO_EC_FLAG_EXTENDED_DATA ≠ 0 ↔
      msg.type = WILCO_EC_MSG_TELEMETRY_LONG) := by
  rcases raw_write_cases st input tr with ⟨_, hw⟩ | ⟨e', _, hw⟩ | ⟨bs, _, _, hw⟩ |
    ⟨b0, b1, b2, payload, hp, hlen, ⟨errno, htr, hw⟩ | ⟨resp, htr, hw⟩⟩
  · rw [hw] at h; simp at h
  · rw [hw] at h; simp at h
  · rw [hw] at h; simp at h
  · rw [hw] at h
    obtain rfl : build_message b0 b1 b2 payload = msg := by simpa using h
    exact build_message_flags b0 b1 b2 payload
  · rw [hw] at h
    obtain rfl : build_message b0 b1 b2 payload = msg := by simpa using h
    exact build_message_flags b0 b1 b2 payload

/-- C9 (witness): the telemetry-long write "00 f6 01" hands the
transport a message with the raw flag set and the extended flag set. -/
theorem C9_flags_invariant_witness :
    (raw_write (⟨0, List.replicate 256 0⟩ : WilcoEcDebugfs) ("00 f6 01".toList)
        (fun _ => .ok [])).sent = some (build_message 0x00 0xf6 0x01 []) ∧
    ((build_message 0x00 0xf6 0x01 []).flags &&& WILCO_EC_FLAG_RAW = WILCO_EC_FLAG_RAW ∧
     ((build_message 0x00 0xf6 0x01 []).flags &&& WILCO_EC_FLAG_EXTENDED_DATA ≠ 0 ↔
       (build_message 0x00 0xf6 0x01 []).type = WILCO_EC_MSG_TELEMETRY_LONG)) :=
  ⟨by decide,
   C9_flags_invariant ⟨0, List.replicate 256 0⟩ ("00 f6 01".toList) (fun _ => .ok [])
     (build_message 0x00 0xf6 0x01 []) (by decide)⟩

/-- C10: a write that succeeds end to end returns the full length of
the input text, regardless of how many bytes were actually parsed and
sent. -/
theorem C10_returns_full_count (st : WilcoEcDebugfs) (input : List Char)
    (tr : WilcoEcMessage → Except Int (List Nat)) (n : Nat)
    (h : (raw_write st input tr).ret = .ok n) :
    n = input.length := by
  rcases raw_write_cases st input tr with ⟨_, hw⟩ | ⟨e', _, hw⟩ | ⟨bs, _, _, hw⟩ |
    ⟨b0, b1, b2, payload, hp, hlen, ⟨errno, htr, hw⟩ | ⟨resp, htr, hw⟩⟩ <;>
    rw [hw] at h
  · simp at h
  · simp at h
  · simp at h
  · simp at h
  · exact (Except.ok.inj h).symm

/-- C10 (witness): a 40-word input of 119 characters; only 34
bytes (the request capacity) are parsed and the payload sent is 31
bytes, yet the successful write returns the full input length 119. -/
theorem C10_returns_full_count_witness :
    (raw_write (⟨0, List.replicate 256 0⟩ : WilcoEcDebugfs)
        ("aa aa aa aa aa aa aa aa aa aa aa aa aa aa aa aa aa aa aa aa aa aa aa aa aa aa aa aa aa aa aa aa aa aa aa aa aa aa aa aa".toList)
        (fun _ => .ok [])).ret = .ok 119 ∧
    (119 : Nat) =
      ("aa aa aa aa aa aa aa aa aa aa aa aa aa aa aa aa aa aa aa aa aa aa aa aa aa aa aa aa aa aa aa aa aa aa aa aa aa aa aa aa".toList).length ∧
    (raw_write (⟨0, List.replicate 256 0⟩ : WilcoEcDebugfs)
        ("aa aa aa aa aa aa aa aa aa aa aa aa aa aa aa aa aa aa aa aa aa aa aa aa aa aa aa aa aa aa aa aa aa aa aa aa aa aa aa aa".toList)
        (fun _ => .ok [])).sent =
      some (build_message 0xaa 0xaa 0xaa (List.replicate 31 0xaa)) :=
  ⟨by decide,
   C10_returns_full_count ⟨0, List.replicate 256 0⟩
     ("aa aa aa aa aa aa aa aa aa aa aa aa aa aa aa aa aa aa aa aa aa aa aa aa aa aa aa aa aa aa aa aa aa aa aa aa aa aa aa aa".toList)
     (fun _ => .ok []) 119 (by decide),
   by decide⟩

end WilcoEc
